import Mathlib

/-!
Verification development for the PageMind browser assistant.

The development shallowly embeds the streaming chat core of the
repository: the background service worker's SSE stream decoder
(`handleStreamingChat` read loop), the UI-side session controller
(`handleSendMessage`, `handleContextAction`, the port message listener,
the disconnect listener, the context-validity interval), and the
persistence trigger (`SAVE_CHAT_HISTORY` effect).

Modelling conventions:
- Byte streams are modelled as lists of characters that have already
  been decoded to text, matching the source's use of a streaming
  `TextDecoder` before any splitting occurs.
- JavaScript string truthiness (`if (s)`) is modelled as the test
  against the empty string; an optional field is an `Option`.
- `JSON.parse` followed by the optional-chain
  `parsed.choices?.[0]?.delta?.content` is abstracted as a parameter
  `pd : String -> Option String`, where `none` models either a parse
  throw or a missing field; the non-emptiness test the source performs
  on the extracted field is kept explicit in the embedding.
- React `setState` calls are modelled as pure state transformers on a
  `UIState` record; each event handler of the source becomes one
  function.
-/

/-- The `type` discriminant of the background worker's `StreamChunk`
interface: `'chunk' | 'done' | 'error'`. -/
inductive ChunkType where
  | chunk
  | done
  | error
deriving DecidableEq, Repr

/-- The `StreamChunk` interface of the background worker, which is also
the shape of messages received by the UI's `port.onMessage` listener:
`{ type; content?: string; error?: string }`. -/
structure StreamChunk where
  ctype : ChunkType
  content : Option String := none
  error : Option String := none
deriving DecidableEq, Repr

/-- `{ type: 'chunk', content }`. -/
def mkChunk (c : String) : StreamChunk := ⟨ChunkType.chunk, some c, none⟩

/-- `{ type: 'done' }`. -/
def doneChunk : StreamChunk := ⟨ChunkType.done, none, none⟩

/-- `{ type: 'error', error }`. -/
def mkError (e : String) : StreamChunk := ⟨ChunkType.error, none, some e⟩

/-- Splitting a character stream on the newline character, exactly as
`buffer.split('\n')` followed by `buffer = lines.pop() || ''` does in
`handleStreamingChat`: the first component is the list of complete
lines (newline-terminated prefixes), the second is the trailing
fragment after the last newline, which the source holds back as the
new buffer. -/
def splitLines : List Char → List (List Char) × List Char
  | [] => ([], [])
  | c :: cs =>
    if c = '\n' then
      ([] :: (splitLines cs).1, (splitLines cs).2)
    else
      match splitLines cs with
      | ([], r) => ([], c :: r)
      | (l :: ls, r) => ((c :: l) :: ls, r)

/-- State of the background read loop: the held-back buffer, the
sequence of `StreamChunk` messages posted to the port so far, and
whether the early `return` after the `[DONE]` token has fired. -/
structure DecState where
  buffer : List Char
  events : List StreamChunk
  finished : Bool
deriving DecidableEq, Repr

/-- The initial decoder state: `let buffer = ''`, nothing posted. -/
def initDecState : DecState := ⟨[], [], false⟩

/-- Processing of one complete line by the body of the `for (const line
of lines)` loop in `handleStreamingChat`. `pd` abstracts
`JSON.parse(data)` followed by `parsed.choices?.[0]?.delta?.content`:
`none` models a parse throw (caught and ignored by the source) or an
absent field. Lines not prefixed `data: ` are ignored; the payload
`[DONE]` posts `{type:'done'}` and returns from the whole handler
(modelled by the `finished` flag); otherwise a present non-empty delta
posts `{type:'chunk', content}`. -/
def processLine (pd : String → Option String) (st : DecState) (line : List Char) : DecState :=
  if st.finished then st
  else if ("data: ".data).isPrefixOf line then
    let data := line.drop 6
    if data = ("[DONE]".data) then
      { st with events := st.events ++ [doneChunk], finished := true }
    else
      match pd (String.mk data) with
      | some c => if c = "" then st else { st with events := st.events ++ [mkChunk c] }
      | none => st
  else st

/-- Processing of one `reader.read()` result in `handleStreamingChat`:
append the decoded chunk to the buffer, split on newline, hold back the
final fragment as the new buffer, and run the line loop over the
complete lines. Once `finished` is set the source has returned, so
later reads are not processed. -/
def processRead (pd : String → Option String) (st : DecState) (chunk : List Char) : DecState :=
  if st.finished then st
  else
    let sp := splitLines (st.buffer ++ chunk)
    let st1 := sp.1.foldl (processLine pd) { st with buffer := [] }
    { st1 with buffer := sp.2 }

/-- The whole read loop of `handleStreamingChat` on a finite sequence
of reads: fold the reads, and when the loop exits because the reader
reported `done` without the `[DONE]` token having fired, post the final
synthesized `{type:'done'}` (`port.postMessage({ type: 'done' })` after
the `while` loop). The result is the sequence of messages posted to the
port. -/
def runStream (pd : String → Option String) (reads : List (List Char)) : List StreamChunk :=
  let st := reads.foldl (processRead pd) initDecState
  if st.finished then st.events else st.events ++ [doneChunk]

/-- The model selection of `handleStreamingChat`:
`const model = request.model || selectedModel || 'gpt-4o-mini'`.
`jsOrString o d` is the JavaScript `o || d` where `o` is a possibly
absent string: an absent or empty (falsy) value falls through. -/
def jsOrString : Option String → String → String
  | some s, d => if s = "" then d else s
  | none, d => d

/-- `request.model || selectedModel || 'gpt-4o-mini'` from
`handleStreamingChat`: `reqModel` is the envelope's optional `model`
field and `storedModel` the value read fresh from
`chrome.storage.sync` (absent when never set). -/
def effectiveModel (reqModel storedModel : Option String) : String :=
  jsOrString reqModel (jsOrString storedModel ("gpt-4o-mini"))

/-- JavaScript `haystack.includes(needle)` on strings. -/
def jsIncludes (haystack needle : String) : Bool :=
  go needle.data haystack.data
where
  go (n : List Char) : List Char → Bool
    | [] => n.isEmpty
    | c :: t => n.isPrefixOf (c :: t) || go n t

/-- The `role` enum of the UI `Message` interface. -/
inductive Role where
  | user
  | assistant
deriving DecidableEq, Repr

/-- The UI `Message` interface: `{ id, role, content, timestamp,
isStreaming? }`. The timestamp (`Date`) is modelled as the
milliseconds value used to build it; the optional `isStreaming` field
is modelled as a `Bool` whose absence is `false`, matching every
truthiness test the source performs on it. -/
structure Message where
  id : String
  role : Role
  content : String
  timestamp : Nat
  isStreaming : Bool := false
deriving DecidableEq, Repr

/-- The four interaction modes. -/
inductive Mode where
  | explain
  | quiz
  | ask
  | summarize
deriving DecidableEq, Repr

/-- One `{role, content}` pair of the request envelope. -/
structure ChatMsg where
  role : String
  content : String
deriving DecidableEq, Repr

/-- The `STREAM_CHAT_REQUEST` payload built in `handleSendMessage`:
`{ messages, mode, context, model }`. -/
structure ChatRequest where
  messages : List ChatMsg
  mode : Mode
  context : String
  model : String
deriving DecidableEq, Repr

/-- `m.role` as the string sent in the envelope. -/
def roleString : Role → String
  | Role.user => "user"
  | Role.assistant => "assistant"

/-- `{ role: m.role, content: m.content }`. -/
def toChatMsg (m : Message) : ChatMsg := ⟨roleString m.role, m.content⟩

/-- The React state of `PageMindApp` restricted to the fields the chat
session core reads or writes. -/
structure UIState where
  messages : List Message
  input : String
  isLoading : Bool
  selectedContext : String
  hasApiKey : Bool
  showSettings : Bool
  contextInvalidated : Bool
  selectedModel : String
  mode : Mode
  isOpen : Bool
  apiKeyInput : String
deriving DecidableEq, Repr

/-- The initial state of `PageMindApp` (the `useState` defaults). -/
def initialUIState : UIState :=
  { messages := []
    input := ""
    isLoading := false
    selectedContext := ""
    hasApiKey := true
    showSettings := false
    contextInvalidated := false
    selectedModel := "gpt-4o-mini"
    mode := Mode.ask
    isOpen := false
    apiKeyInput := "" }

/-- The `port.onMessage` listener registered in `handleSendMessage`,
applied to one inbound `StreamChunk`. `aid` is the captured
`assistantId` of the streaming placeholder. A `chunk` with a truthy
`content` appends to the addressed message; `done` clears its
`isStreaming` flag and releases the busy flag; `error` replaces its
content with an error-formatted string, settles it, releases the busy
flag, and surfaces the settings pane when the message mentions the API
key. (In the source an absent `error` field interpolates as the string
`undefined`.) -/
def applyPortMessage (aid : String) (st : UIState) (msg : StreamChunk) : UIState :=
  match msg.ctype with
  | ChunkType.chunk =>
    match msg.content with
    | some c =>
      if c = "" then st
      else
        { st with messages :=
            st.messages.map (fun (m : Message) =>
              if m.id = aid then { m with content := m.content ++ c } else m) }
    | none => st
  | ChunkType.done =>
    { st with
      messages :=
        st.messages.map (fun (m : Message) =>
          if m.id = aid then { m with isStreaming := false } else m)
      isLoading := false }
  | ChunkType.error =>
    let e := match msg.error with | some e => e | none => "undefined"
    let st1 :=
      { st with messages :=
          st.messages.map (fun (m : Message) =>
            if m.id = aid then
              { m with content := "❌ Error: " ++ e, isStreaming := false }
            else m) }
    let st2 :=
      if jsIncludes e ("API key") then
        { st1 with hasApiKey := false, showSettings := true }
      else st1
    { st2 with isLoading := false }

/-- The `port.onDisconnect` listener registered in `handleSendMessage`:
when `chrome.runtime.lastError` carries a message mentioning context
invalidation it raises the Context-Validity flag; it then clears the
busy flag. It does not touch the message list. -/
def handleDisconnect (lastError : Option String) (st : UIState) : UIState :=
  let st1 :=
    match lastError with
    | some msg =>
      if jsIncludes msg ("Extension context invalidated") then
        { st with contextInvalidated := true }
      else st
    | none => st
  { st1 with isLoading := false }

/-- The error content written by the catch block of
`handleSendMessage` when the host context is invalid (the thrown
message contains `Extension context invalidated`). -/
def reloadErrorContent : String :=
  "❌ Error: Extension was reloaded. Please refresh this page."

/-- `handleSendMessage(content?, currentMode?)` of `PageMindApp`.
`runtimeValid` models the truthiness of `chrome.runtime?.id` at the
moment of the call; `now` models `Date.now()` (the user message id is
`now`, the assistant placeholder id `now + 1`). The returned `Option
ChatRequest` is the `STREAM_CHAT_REQUEST` payload posted on a freshly
opened port, or `none` when no port was opened (guard hit, or the
setup threw and the catch block settled the placeholder). -/
def handleSendMessage (runtimeValid : Bool) (now : Nat)
    (contentArg : Option String) (modeArg : Option Mode)
    (st : UIState) : UIState × Option ChatRequest :=
  let messageContent := jsOrString contentArg st.input.trim
  if messageContent = "" ∨ st.isLoading then (st, none)
  else
    let userMessage : Message :=
      { id := toString now, role := Role.user, content := messageContent
        timestamp := now, isStreaming := false }
    let assistantId := toString (now + 1)
    let streamingMessage : Message :=
      { id := assistantId, role := Role.assistant, content := ""
        timestamp := now, isStreaming := true }
    let st1 :=
      { st with messages := st.messages ++ [userMessage, streamingMessage]
                input := "", isLoading := true }
    if runtimeValid then
      (st1,
       some { messages := (st.messages ++ [userMessage]).map toChatMsg
              mode := match modeArg with | some m => m | none => st.mode
              context := st.selectedContext
              model := st.selectedModel })
    else
      ({ st1 with
          contextInvalidated := true
          messages := st1.messages.map (fun (m : Message) =>
            if m.id = assistantId then
              { m with content := reloadErrorContent, isStreaming := false }
            else m)
          isLoading := false },
       none)

/-- The `prompts` record built in `handleContextAction`, applied to the
selected text. -/
def promptFor (m : Mode) (selectedText : String) : String :=
  match m with
  | Mode.explain => "Please explain this:\n\n\"" ++ selectedText ++ "\""
  | Mode.quiz => "Create a quiz based on this:\n\n\"" ++ selectedText ++ "\""
  | Mode.summarize => "Summarize this:\n\n\"" ++ selectedText ++ "\""
  | Mode.ask => "About this:\n\n\"" ++ selectedText ++ "\""

/-- The `handleContextAction` listener of `PageMindApp`: queue the
state updates `setMode(newMode)`, `setSelectedContext(selectedText)`,
`setIsOpen(true)`; then for a non-`ask` mode invoke
`handleSendMessage(prompts[newMode], newMode)`, and for `ask` clear
the input (and focus it) without sending.

The invoked `handleSendMessage` is the `useCallback` closure of the
last committed render: all its reads (`input`, `isLoading`,
`messages`, `selectedContext`, `selectedModel`) see the pre-event
state `st`, not the just-queued updates — in particular the posted
envelope's `context` field carries the stale pre-event
`selectedContext`, not `selectedText`. Its own state writes
(`messages`, `input`, `isLoading`, possibly `contextInvalidated`) are
queued after the mode/context/open updates; the write sets are
disjoint, so the committed state is the send's result state overlaid
with the fresh `mode`, `selectedContext` and `isOpen`. -/
def handleContextAction (runtimeValid : Bool) (now : Nat)
    (newMode : Mode) (selectedText : String)
    (st : UIState) : UIState × Option ChatRequest :=
  if newMode ≠ Mode.ask then
    let send := handleSendMessage runtimeValid now
      (some (promptFor newMode selectedText)) (some newMode) st
    ({ send.1 with mode := newMode, selectedContext := selectedText, isOpen := true },
     send.2)
  else
    ({ st with mode := newMode, selectedContext := selectedText, isOpen := true,
               input := "" }, none)

/-- The guard of the `SAVE_CHAT_HISTORY` effect of `PageMindApp`:
`messages.length > 0 && !messages.some(m => m.isStreaming)`. The
effect sends the message list to durable storage exactly when this
returns `true` (and the runtime is live). -/
def shouldPersistHistory (msgs : List Message) : Bool :=
  decide (0 < msgs.length) && !(msgs.any (fun (m : Message) => m.isStreaming))

/-- The `handleClearChat` handler: empty the message list and the
selected context (and clear the stored record). -/
def handleClearChat (st : UIState) : UIState :=
  { st with messages := [], selectedContext := "" }

/-- The `handleModelChange` handler: update the cached model and write
it through to storage. -/
def handleModelChange (model : String) (st : UIState) : UIState :=
  { st with selectedModel := model }

/-- The `handleSaveApiKey` handler restricted to its state effects:
a blank input is a no-op; an invalid runtime raises the
Context-Validity flag; otherwise the success callback records the key
presence, hides the settings pane and clears the input field. -/
def handleSaveApiKey (runtimeValid : Bool) (st : UIState) : UIState :=
  if st.apiKeyInput.trim = "" then st
  else if runtimeValid then
    { st with hasApiKey := true, showSettings := false, apiKeyInput := "" }
  else
    { st with contextInvalidated := true }

/-- The periodic context-validity check installed by the mount effect:
every five seconds, if `chrome.runtime?.id` is falsy, raise the
Context-Validity flag. -/
def livenessTick (runtimeValid : Bool) (st : UIState) : UIState :=
  if runtimeValid then st else { st with contextInvalidated := true }

/-- The UI events whose handlers the embedding models, one constructor
per source handler that mutates React state. -/
inductive UIEvent where
  | portMsg (assistantId : String) (msg : StreamChunk)
  | disconnect (lastError : Option String)
  | tick
  | send (now : Nat) (contentArg : Option String) (modeArg : Option Mode)
  | contextAction (now : Nat) (mode : Mode) (selectedText : String)
  | toggle
  | selectMode (m : Mode)
  | typeInput (s : String)
  | typeApiKey (s : String)
  | clearChat
  | modelChange (m : String)
  | saveApiKey
deriving Repr

/-- One step of the UI state machine: dispatch a `UIEvent` to the
handler embedded from the source. `runtimeValid` is the liveness of
the host context (`chrome.runtime?.id`) while the event runs. -/
def step (runtimeValid : Bool) (e : UIEvent) (st : UIState) : UIState :=
  match e with
  | UIEvent.portMsg aid msg => applyPortMessage aid st msg
  | UIEvent.disconnect le => handleDisconnect le st
  | UIEvent.tick => livenessTick runtimeValid st
  | UIEvent.send now c m => (handleSendMessage runtimeValid now c m st).1
  | UIEvent.contextAction now m s => (handleContextAction runtimeValid now m s st).1
  | UIEvent.toggle => { st with isOpen := !st.isOpen }
  | UIEvent.selectMode m => { st with mode := m }
  | UIEvent.typeInput s => { st with input := s }
  | UIEvent.typeApiKey s => { st with apiKeyInput := s }
  | UIEvent.clearChat => handleClearChat st
  | UIEvent.modelChange m => handleModelChange m st
  | UIEvent.saveApiKey => handleSaveApiKey runtimeValid st

/-- A run of the UI state machine over a sequence of events, each
paired with the host liveness observed while it runs. -/
def runTrace (st : UIState) (tr : List (Bool × UIEvent)) : UIState :=
  tr.foldl (fun s p => step p.1 p.2 s) st

/-- A settled user message, used as a concrete sample input. -/
def exUser : Message :=
  { id := "100", role := Role.user, content := "hi", timestamp := 100, isStreaming := false }

/-- A mid-stream assistant placeholder, as `handleSendMessage` appends
it. -/
def exPlaceholder : Message :=
  { id := "101", role := Role.assistant, content := "", timestamp := 100, isStreaming := true }

/-- The UI state right after a send appended its message pair and the
request went out: the placeholder is streaming and the busy flag is
set. -/
def midStreamState : UIState :=
  { initialUIState with messages := [exUser, exPlaceholder], isLoading := true }

/-- Invariant of the decoder state: when the early-return flag is set,
the last posted message is the `done` event. -/
def DoneLast (st : DecState) : Prop :=
  st.finished = true → st.events.getLast? = some doneChunk

/-- Observational equivalence of decoder states: same posted messages
and same early-return flag; the held-back buffer must agree only while
the loop is still running (after the early return the buffer is dead
state). -/
def DecEquiv (s1 s2 : DecState) : Prop :=
  s1.events = s2.events ∧ s1.finished = s2.finished ∧
    (s1.finished = false → s1.buffer = s2.buffer)

/-- C3: the persist trigger fires only on a non-empty message list
with no mid-stream message, so a message set handed to durable storage
never contains an entry with `isStreaming = true`. -/
theorem persist_guard_excludes_streaming (msgs : List Message)
    (h : shouldPersistHistory msgs = true) :
    msgs ≠ [] ∧ ∀ m ∈ msgs, m.isStreaming = false := by
  unfold shouldPersistHistory at h
  simp only [Bool.and_eq_true, decide_eq_true_eq, Bool.not_eq_true'] at h
  obtain ⟨hlen, hany⟩ := h
  refine ⟨?_, ?_⟩
  · intro hnil; simp [hnil] at hlen
  · intro m hm
    have := List.any_eq_false.mp hany m hm
    simpa using this

/-- Witness for C3 at a concrete settled history. -/
theorem persist_guard_excludes_streaming_witness :
    shouldPersistHistory [exUser] = true ∧
      ([exUser] ≠ ([] : List Message) ∧ ∀ m ∈ [exUser], m.isStreaming = false) :=
  ⟨by decide, persist_guard_excludes_streaming [exUser] (by decide)⟩

/-- C6: a send attempted while the busy flag is set is a no-op: the
guard returns before any message is appended and before any port is
opened, leaving the state unchanged. -/
theorem send_while_busy_is_noop (rv : Bool) (now : Nat)
    (c : Option String) (m : Option Mode) (st : UIState)
    (h : st.isLoading = true) :
    handleSendMessage rv now c m st = (st, none) := by
  unfold handleSendMessage
  rw [if_pos (Or.inr h)]

/-- Witness for C6 at a concrete busy state. -/
theorem send_while_busy_is_noop_witness :
    handleSendMessage true 0 (some ("hello")) none midStreamState = (midStreamState, none) :=
  send_while_busy_is_noop true 0 (some ("hello")) none midStreamState rfl

/-- C1 (evaluating the code at the failing input): when the channel
closes without a prior `done`/`error` (`port.onDisconnect` fires with
no `lastError`), the handler only clears the busy flag; the streaming
placeholder is left untouched, still `isStreaming = true` and without
any connection-lost error content. -/
theorem disconnect_leaves_placeholder_streaming :
    (handleDisconnect none midStreamState).messages = [exUser, exPlaceholder] ∧
      exPlaceholder.isStreaming = true ∧
      (handleDisconnect none midStreamState).isLoading = false := by
  refine ⟨rfl, rfl, rfl⟩

/-- C10: the model identifier used by the background's streaming
handler is the request envelope's `model` when truthy, else the stored
`selectedModel` when truthy, else the literal `gpt-4o-mini`; and every
envelope posted by the UI carries the UI's cached `selectedModel`, so
the envelope value shadows the background's fresh storage read. -/
theorem model_selection_precedence :
    (∀ (m : String) (sm : Option String), m ≠ "" → effectiveModel (some m) sm = m)
    ∧ (∀ (s : String), s ≠ "" →
        effectiveModel none (some s) = s ∧ effectiveModel (some ("")) (some s) = s)
    ∧ (effectiveModel none none = "gpt-4o-mini"
        ∧ effectiveModel (some ("")) none = "gpt-4o-mini"
        ∧ effectiveModel none (some ("")) = "gpt-4o-mini"
        ∧ effectiveModel (some ("")) (some ("")) = "gpt-4o-mini")
    ∧ (∀ (rv : Bool) (now : Nat) (c : Option String) (mm : Option Mode)
        (st st1 : UIState) (req : ChatRequest),
        handleSendMessage rv now c mm st = (st1, some req) →
          req.model = st.selectedModel) := by
  refine ⟨?_, ?_, ?_, ?_⟩
  · intro m sm hm
    simp [effectiveModel, jsOrString, hm]
  · intro s hs
    exact ⟨by simp [effectiveModel, jsOrString, hs], by simp [effectiveModel, jsOrString, hs]⟩
  · refine ⟨rfl, rfl, rfl, rfl⟩
  · intro rv now c mm st st1 req h
    simp only [handleSendMessage] at h
    split at h
    · simp at h
    · split at h
      · obtain ⟨-, h2⟩ := Prod.mk.injEq .. ▸ h
        cases h2
        rfl
      · simp at h

/-- Witness for C10 at concrete inputs: an explicit envelope model, a
storage fallback, the hard default, and a concrete posted envelope. -/
theorem model_selection_precedence_witness :
    effectiveModel (some ("gpt-4o")) (some ("gpt-4.1")) = "gpt-4o"
    ∧ effectiveModel none (some ("gpt-4.1")) = "gpt-4.1"
    ∧ effectiveModel none none = "gpt-4o-mini"
    ∧ (⟨[⟨"user", "hello"⟩], Mode.ask, "", "gpt-4o-mini"⟩ : ChatRequest).model
        = initialUIState.selectedModel :=
  ⟨model_selection_precedence.1 ("gpt-4o") (some ("gpt-4.1")) (by decide),
   (model_selection_precedence.2.1 ("gpt-4.1") (by decide)).1,
   model_selection_precedence.2.2.1.1,
   model_selection_precedence.2.2.2 true 0 (some ("hello")) none initialUIState
     { initialUIState with
        messages :=
          [{ id := "0", role := Role.user, content := "hello", timestamp := 0 },
           { id := "1", role := Role.assistant, content := "", timestamp := 0, isStreaming := true }]
        input := "", isLoading := true }
     ⟨[⟨"user", "hello"⟩], Mode.ask, "", "gpt-4o-mini"⟩ (by decide)⟩

/-- `String.join` distributes over cons; used to relate the event fold
to concatenation in delivery order. -/
theorem join_cons_eq (a : String) (l : List String) :
    String.join (a :: l) = a ++ String.join l := by
  simp [String.join_eq, String.ext_iff, String.data_append]

/-- C2: folding any sequence of `chunk` events followed by one `done`
event into the message list appends the concatenation of the chunk
texts, in delivery order, to the message addressed by the placeholder
id, and settles exactly that message. -/
theorem chunk_fold_concatenates (aid : String) (ts : List String) (st : UIState) :
    ((ts.map mkChunk ++ [doneChunk]).foldl (applyPortMessage aid) st).messages =
      st.messages.map (fun (m : Message) =>
        if m.id = aid then
          { m with content := m.content ++ String.join ts, isStreaming := false }
        else m) := by
  induction ts generalizing st with
  | nil =>
    have : (([] : List String).map mkChunk ++ [doneChunk]) = [doneChunk] := rfl
    rw [this]
    simp only [List.foldl_cons, List.foldl_nil]
    show (applyPortMessage aid st doneChunk).messages = _
    simp only [applyPortMessage, mkChunk, doneChunk]
    apply List.map_congr_left
    intro m _
    by_cases h : m.id = aid <;> simp [h, String.join]
  | cons t ts ih =>
    simp only [List.map_cons, List.cons_append, List.foldl_cons]
    by_cases ht : t = ""
    · have hstep : applyPortMessage aid st (mkChunk t) = st := by
        simp [applyPortMessage, mkChunk, ht]
      rw [hstep, ih]
      apply List.map_congr_left
      intro m _
      by_cases h : m.id = aid <;> simp [h, join_cons_eq, ht]
    · have hstep : applyPortMessage aid st (mkChunk t) =
          { st with messages := st.messages.map (fun (m : Message) =>
              if m.id = aid then { m with content := m.content ++ t } else m) } := by
        simp [applyPortMessage, mkChunk, ht]
      rw [hstep, ih]
      simp only [List.map_map]
      apply List.map_congr_left
      intro m _
      by_cases h : m.id = aid <;>
        simp [Function.comp, h, join_cons_eq, String.append_assoc]

/-- The line loop preserves the `DoneLast` invariant: it only sets the
early-return flag together with posting the `done` event. -/
theorem processLine_doneLast (pd : String → Option String) (st : DecState)
    (line : List Char) (h : DoneLast st) : DoneLast (processLine pd st line) := by
  unfold DoneLast at *
  unfold processLine
  by_cases hf : st.finished = true
  · simp only [hf, if_true]
    exact fun _ => h hf
  · simp only [hf, if_false, Bool.false_eq_true]
    by_cases hp : ("data: ".data).isPrefixOf line = true
    · simp only [hp, if_true]
      by_cases hd : line.drop 6 = ("[DONE]".data)
      · simp only [hd, if_true]
        intro _
        simp
      · simp only [hd, if_false]
        cases hpd : pd (String.mk (line.drop 6)) with
        | some c =>
          simp only [hpd]
          by_cases hc : c = "" <;> simp [hc, hf]
        | none => simp [hpd, hf]
    · simp only [hp]
      simp only [Bool.not_eq_true] at hp
      simp [hp, hf]

/-- The `DoneLast` invariant is preserved by the fold over the
complete lines of one read. -/
theorem foldl_processLine_doneLast (pd : String → Option String)
    (lines : List (List Char)) (st : DecState) (h : DoneLast st) :
    DoneLast (lines.foldl (processLine pd) st) := by
  induction lines generalizing st with
  | nil => exact h
  | cons l ls ih => exact ih _ (processLine_doneLast pd st l h)

/-- Each read preserves the `DoneLast` invariant. -/
theorem processRead_doneLast (pd : String → Option String) (st : DecState)
    (chunk : List Char) (h : DoneLast st) : DoneLast (processRead pd st chunk) := by
  unfold processRead
  by_cases hf : st.finished = true
  · simp only [hf, if_true]; exact h
  · simp only [hf, if_false, Bool.false_eq_true]
    have h1 : DoneLast { buffer := ([] : List Char), events := st.events, finished := false } := by
      intro hfin; simp at hfin
    exact foldl_processLine_doneLast pd (splitLines (st.buffer ++ chunk)).1 _ h1

/-- The whole read fold preserves the `DoneLast` invariant. -/
theorem foldl_processRead_doneLast (pd : String → Option String)
    (reads : List (List Char)) (st : DecState) (h : DoneLast st) :
    DoneLast (reads.foldl (processRead pd) st) := by
  induction reads generalizing st with
  | nil => exact h
  | cons r rs ih => exact ih _ (processRead_doneLast pd st r h)

/-- C4: on every finite sequence of reads, the message sequence the
decoder posts ends with the `done` event: either the `[DONE]` token
fired, or the loop exited at end-of-stream and the trailing `done` is
synthesized, so the consumer's event sequence is always terminated —
in particular when the byte stream ends without ever containing the
termination token. -/
theorem stream_always_terminated (pd : String → Option String)
    (reads : List (List Char)) :
    (runStream pd reads).getLast? = some doneChunk := by
  have h0 : DoneLast initDecState := by intro hf; simp [initDecState] at hf
  have h : DoneLast (reads.foldl (processRead pd) initDecState) :=
    foldl_processRead_doneLast pd reads initDecState h0
  unfold runStream
  by_cases hf : (reads.foldl (processRead pd) initDecState).finished = true
  · simp only [hf, if_true]
    exact h hf
  · simp only [hf, if_false, Bool.false_eq_true]
    simp

/-- How `splitLines` acts on a concatenation: the complete lines of
`a` are produced unchanged, and the held-back fragment of `a` is
prepended to `b` before the remaining lines are found. This is the
algebraic content of the source's buffer hold-back. -/
theorem splitLines_append (a b : List Char) :
    splitLines (a ++ b) =
      ((splitLines a).1 ++ (splitLines ((splitLines a).2 ++ b)).1,
       (splitLines ((splitLines a).2 ++ b)).2) := by
  induction a with
  | nil => simp [splitLines]
  | cons c a' ih =>
    by_cases hc : c = '\n'
    · subst hc
      simp [splitLines, ih]
    · simp only [List.cons_append]
      have hsplit : ∀ t : List Char, splitLines (c :: t) =
          (match splitLines t with
           | ([], r) => ([], c :: r)
           | (l :: ls, r) => ((c :: l) :: ls, r)) := by
        intro t
        simp [splitLines, hc]
      rw [hsplit (a' ++ b), hsplit a', ih]
      rcases hsp : splitLines a' with ⟨la, ra⟩
      cases la with
      | nil =>
        simp only [List.nil_append, List.cons_append]
        rw [hsplit (ra ++ b)]
      | cons l ls =>
        simp

/-- The line loop never touches the buffer field. -/
theorem processLine_buffer (pd : String → Option String) (st : DecState)
    (line : List Char) : (processLine pd st line).buffer = st.buffer := by
  unfold processLine
  by_cases hf : st.finished = true
  · simp [hf]
  · simp only [hf, if_false, Bool.false_eq_true]
    by_cases hp : ("data: ".data).isPrefixOf line = true
    · simp only [hp, if_true]
      by_cases hd : line.drop 6 = ("[DONE]".data)
      · simp [hd]
      · simp only [hd, if_false]
        cases hpd : pd (String.mk (line.drop 6)) with
        | some c => by_cases hc : c = "" <;> simp [hc]
        | none => simp
    · simp [hp]

/-- Folding the line loop never touches the buffer field. -/
theorem foldl_processLine_buffer (pd : String → Option String)
    (lines : List (List Char)) (st : DecState) :
    (lines.foldl (processLine pd) st).buffer = st.buffer := by
  induction lines generalizing st with
  | nil => rfl
  | cons l ls ih => rw [List.foldl_cons, ih, processLine_buffer]

/-- After the early return the line loop is the identity. -/
theorem processLine_finished (pd : String → Option String) (st : DecState)
    (line : List Char) (h : st.finished = true) : processLine pd st line = st := by
  unfold processLine
  simp [h]

/-- After the early return the fold over lines is the identity. -/
theorem foldl_processLine_finished (pd : String → Option String)
    (lines : List (List Char)) (st : DecState) (h : st.finished = true) :
    lines.foldl (processLine pd) st = st := by
  induction lines with
  | nil => rfl
  | cons l ls ih => rw [List.foldl_cons, processLine_finished pd st l h, ih]

/-- Observationally equivalent unfinished states are equal. -/
theorem DecEquiv.eq_of_not_finished {s1 s2 : DecState} (h : DecEquiv s1 s2)
    (h1 : s1.finished = false) : s1 = s2 := by
  obtain ⟨he, hf, hb⟩ := h
  cases s1
  cases s2
  simp_all

/-- `DecEquiv` is reflexive. -/
theorem DecEquiv.refl (s : DecState) : DecEquiv s s := ⟨rfl, rfl, fun _ => rfl⟩

/-- The unfolded form of `processRead` while the loop is running. -/
theorem processRead_eq (pd : String → Option String) (st : DecState)
    (chunk : List Char) (h : ¬ st.finished = true) :
    processRead pd st chunk =
      { ((splitLines (st.buffer ++ chunk)).1.foldl (processLine pd)
          { st with buffer := [] }) with
        buffer := (splitLines (st.buffer ++ chunk)).2 } := by
  unfold processRead
  rw [if_neg h]

/-- `processRead` after the early return is the identity. -/
theorem processRead_finished (pd : String → Option String) (st : DecState)
    (chunk : List Char) (h : st.finished = true) :
    processRead pd st chunk = st := by
  unfold processRead
  rw [if_pos h]

/-- Splitting one read at any offset is invisible to the decoder
state, up to the dead buffer after an early return: processing `s1`
then `s2` is observationally the same as processing `s1 ++ s2`. -/
theorem processRead_split (pd : String → Option String) (st : DecState)
    (s1 s2 : List Char) :
    DecEquiv (processRead pd (processRead pd st s1) s2)
      (processRead pd st (s1 ++ s2)) := by
  by_cases hf : st.finished = true
  · rw [processRead_finished pd st s1 hf, processRead_finished pd st s2 hf,
        processRead_finished pd st (s1 ++ s2) hf]
    exact DecEquiv.refl st
  · have hb : st.buffer ++ (s1 ++ s2) = (st.buffer ++ s1) ++ s2 :=
      (List.append_assoc st.buffer s1 s2).symm
    set A0 := (splitLines (st.buffer ++ s1)).1.foldl (processLine pd)
      { st with buffer := [] } with hA0
    set R1 := (splitLines (st.buffer ++ s1)).2 with hR1
    have hA : processRead pd st s1 = { A0 with buffer := R1 } :=
      processRead_eq pd st s1 hf
    have hRHS : processRead pd st (s1 ++ s2) =
        { (((splitLines (st.buffer ++ s1)).1 ++ (splitLines (R1 ++ s2)).1).foldl
            (processLine pd) { st with buffer := [] }) with
          buffer := (splitLines (R1 ++ s2)).2 } := by
      rw [processRead_eq pd st (s1 ++ s2) hf, hb, splitLines_append]
    rw [List.foldl_append, ← hA0] at hRHS
    by_cases hAf : A0.finished = true
    · have hS1f : ({ A0 with buffer := R1 } : DecState).finished = true := hAf
      have hL : processRead pd (processRead pd st s1) s2 = { A0 with buffer := R1 } := by
        rw [hA]
        exact processRead_finished pd _ s2 hS1f
      rw [hL, hRHS, foldl_processLine_finished pd _ _ hAf]
      refine ⟨rfl, rfl, fun hcon => ?_⟩
      have hcon' : A0.finished = false := hcon
      rw [hAf] at hcon'
      cases hcon'
    · have hA0buf : A0.buffer = [] := by
        rw [hA0]
        exact foldl_processLine_buffer pd _ _
      have hS1f : ¬ ({ A0 with buffer := R1 } : DecState).finished = true := hAf
      have hstart :
          ({ buffer := ([] : List Char), events := A0.events, finished := A0.finished } : DecState) = A0 := by
        rw [← hA0buf]
      have hL : processRead pd (processRead pd st s1) s2 =
          { ((splitLines (R1 ++ s2)).1.foldl (processLine pd) A0) with
            buffer := (splitLines (R1 ++ s2)).2 } := by
        rw [hA, processRead_eq pd _ s2 hS1f]
        show ({ ((splitLines (R1 ++ s2)).1.foldl (processLine pd)
                  { buffer := ([] : List Char), events := A0.events, finished := A0.finished }) with
                buffer := (splitLines (R1 ++ s2)).2 } : DecState) = _
        rw [hstart]
      rw [hL, hRHS]
      exact DecEquiv.refl _

/-- One read respects observational equivalence of decoder states. -/
theorem processRead_congr (pd : String → Option String) (c : List Char)
    {t1 t2 : DecState} (h : DecEquiv t1 t2) :
    DecEquiv (processRead pd t1 c) (processRead pd t2 c) := by
  by_cases h1 : t1.finished = true
  · have h2 : t2.finished = true := h.2.1 ▸ h1
    rw [processRead_finished pd t1 c h1, processRead_finished pd t2 c h2]
    exact h
  · have h1' : t1.finished = false := by simpa using h1
    have heq : t1 = t2 := DecEquiv.eq_of_not_finished h h1'
    rw [heq]
    exact DecEquiv.refl _

/-- The read fold respects observational equivalence. -/
theorem foldl_processRead_congr (pd : String → Option String)
    (rs : List (List Char)) {t1 t2 : DecState} (h : DecEquiv t1 t2) :
    DecEquiv (rs.foldl (processRead pd) t1) (rs.foldl (processRead pd) t2) := by
  induction rs generalizing t1 t2 with
  | nil => exact h
  | cons r rest ih => exact ih (processRead_congr pd r h)

/-- C5: the decoder is split-invariant: delivering some read split in
two at an arbitrary character offset — in particular anywhere inside a
single `data:` line — produces exactly the same final sequence of
posted events as delivering it unsplit, because the trailing
incomplete fragment after splitting on newlines is held back as the
new buffer. -/
theorem decoder_split_invariant (pd : String → Option String)
    (pre suf : List (List Char)) (s1 s2 : List Char) :
    runStream pd (pre ++ [s1, s2] ++ suf) = runStream pd (pre ++ [s1 ++ s2] ++ suf) := by
  unfold runStream
  have hsplit :
      DecEquiv ((pre ++ [s1, s2] ++ suf).foldl (processRead pd) initDecState)
        ((pre ++ [s1 ++ s2] ++ suf).foldl (processRead pd) initDecState) := by
    rw [List.append_assoc, List.append_assoc]
    simp only [List.foldl_append]
    apply foldl_processRead_congr
    simp only [List.foldl_cons, List.foldl_nil]
    exact processRead_split pd _ s1 s2
  obtain ⟨he, hfin, -⟩ := hsplit
  simp only [he, hfin]

/-- C8: for a complete marker-prefixed line whose payload is not the
termination token, the line loop posts `{type:'chunk', text}` exactly
when the parsed incremental text field is present and non-empty; when
the parse fails (or the field is absent or empty) the line is skipped:
the state is unchanged, so no error is posted and the stream is not
terminated. -/
theorem data_line_chunk_emission (pd : String → Option String) (st : DecState)
    (payload : List Char) (hf : st.finished = false)
    (hd : payload ≠ ("[DONE]".data)) :
    processLine pd st (("data: ".data) ++ payload) =
      (match pd (String.mk payload) with
       | some c =>
         if c = "" then st else { st with events := st.events ++ [mkChunk c] }
       | none => st) := by
  unfold processLine
  have hpre : ("data: ".data).isPrefixOf (("data: ".data) ++ payload) = true := by
    simp [ List.isPrefixOf_iff_prefix]
  have hdrop : (("data: ".data) ++ payload).drop 6 = payload := by
    rw [show (6 : Nat) = ("data: ".data).length from rfl, List.drop_left]
  rw [if_neg (by simp [hf]), if_pos hpre]
  simp only [hdrop]
  rw [if_neg hd]

/-- Witness for C8: a line whose payload fails to parse is silently
skipped, leaving the decoder state untouched. -/
theorem data_line_chunk_emission_witness :
    processLine (fun _ => none) initDecState (("data: ".data) ++ ("notjson".data)) =
      initDecState := by
  have h := data_line_chunk_emission (fun _ => none) initDecState ("notjson".data)
    rfl (by decide)
  simpa using h

/-- The port message listener never touches the Context-Validity flag. -/
theorem applyPortMessage_invalidated (aid : String) (st : UIState) (msg : StreamChunk) :
    (applyPortMessage aid st msg).contextInvalidated = st.contextInvalidated := by
  rcases msg with ⟨t, c, er⟩
  cases t with
  | chunk =>
    cases c with
    | some s => by_cases hs : s = "" <;> simp [applyPortMessage, hs]
    | none => simp [applyPortMessage]
  | done => simp [applyPortMessage]
  | error =>
    cases er with
    | some e => by_cases he : jsIncludes e ("API key") <;> simp [applyPortMessage, he]
    | none =>
      by_cases he : jsIncludes ("undefined") ("API key") <;> simp [applyPortMessage, he]

/-- The disconnect listener can only raise the Context-Validity flag. -/
theorem handleDisconnect_invalidated (le : Option String) (st : UIState)
    (h : st.contextInvalidated = true) :
    (handleDisconnect le st).contextInvalidated = true := by
  cases le with
  | none => simpa [handleDisconnect] using h
  | some m =>
    by_cases hm : jsIncludes m ("Extension context invalidated") <;>
      simp [handleDisconnect, hm, h]

/-- `handleSendMessage` can only raise the Context-Validity flag. -/
theorem handleSendMessage_invalidated (rv : Bool) (now : Nat)
    (c : Option String) (m : Option Mode) (st : UIState)
    (h : st.contextInvalidated = true) :
    ((handleSendMessage rv now c m st).1).contextInvalidated = true := by
  unfold handleSendMessage
  by_cases hg : jsOrString c st.input.trim = "" ∨ st.isLoading = true
  · rw [if_pos hg]
    exact h
  · rw [if_neg hg]
    cases rv <;> simp [h]

/-- `handleContextAction` can only raise the Context-Validity flag. -/
theorem handleContextAction_invalidated (rv : Bool) (now : Nat)
    (m : Mode) (s : String) (st : UIState)
    (h : st.contextInvalidated = true) :
    ((handleContextAction rv now m s st).1).contextInvalidated = true := by
  unfold handleContextAction
  by_cases hm : m ≠ Mode.ask
  · rw [if_pos hm]
    exact handleSendMessage_invalidated rv now _ _ _ h
  · rw [if_neg hm]
    exact h

/-- `handleSaveApiKey` can only raise the Context-Validity flag. -/
theorem handleSaveApiKey_invalidated (rv : Bool) (st : UIState)
    (h : st.contextInvalidated = true) :
    (handleSaveApiKey rv st).contextInvalidated = true := by
  unfold handleSaveApiKey
  by_cases hb : st.apiKeyInput.trim = ""
  · rw [if_pos hb]; exact h
  · rw [if_neg hb]; cases rv <;> simp [h]

/-- One step of the UI state machine never clears the Context-Validity
flag. -/
theorem step_invalidated_mono (rv : Bool) (e : UIEvent) (st : UIState)
    (h : st.contextInvalidated = true) :
    (step rv e st).contextInvalidated = true := by
  cases e with
  | portMsg aid msg => rw [step, applyPortMessage_invalidated]; exact h
  | disconnect le => exact handleDisconnect_invalidated le st h
  | tick => cases rv <;> simp [step, livenessTick, h]
  | send now c m => exact handleSendMessage_invalidated rv now c m st h
  | contextAction now m s => exact handleContextAction_invalidated rv now m s st h
  | toggle => exact h
  | selectMode m => exact h
  | typeInput s => exact h
  | typeApiKey s => exact h
  | clearChat => exact h
  | modelChange m => exact h
  | saveApiKey => exact handleSaveApiKey_invalidated rv st h

/-- C7: the Context-Validity signal is monotonic — once set, no
sequence of further UI events (port messages, disconnects, liveness
ticks, sends, context actions, or any other modelled handler) clears
it — and a send running while the host context is invalid opens no
channel: `handleSendMessage` posts no request envelope. -/
theorem contextValidity_monotone :
    (∀ (st : UIState) (tr : List (Bool × UIEvent)), st.contextInvalidated = true →
      (runTrace st tr).contextInvalidated = true)
    ∧ (∀ (now : Nat) (c : Option String) (m : Option Mode) (st : UIState),
        (handleSendMessage false now c m st).2 = none) := by
  constructor
  · intro st tr h
    induction tr generalizing st with
    | nil => exact h
    | cons p rest ih =>
      exact ih _ (step_invalidated_mono p.1 p.2 st h)
  · intro now c m st
    unfold handleSendMessage
    by_cases hg : jsOrString c st.input.trim = "" ∨ st.isLoading = true
    · rw [if_pos hg]
    · rw [if_neg hg]
      simp

/-- Witness for C7: the flag survives a concrete trace of further
events, and a concrete send against an invalid host posts nothing. -/
theorem contextValidity_monotone_witness :
    (runTrace { initialUIState with contextInvalidated := true }
        [(true, UIEvent.tick), (true, UIEvent.toggle),
         (true, UIEvent.disconnect none)]).contextInvalidated = true
    ∧ (handleSendMessage false 5 (some ("question")) none initialUIState).2 = none :=
  ⟨contextValidity_monotone.1 { initialUIState with contextInvalidated := true }
      [(true, UIEvent.tick), (true, UIEvent.toggle), (true, UIEvent.disconnect none)] rfl,
   contextValidity_monotone.2 5 (some ("question")) none initialUIState⟩

/-- Every templated prompt is a non-empty string, so an auto-sent
prompt always passes the send guard. -/
theorem promptFor_ne_empty (m : Mode) (s : String) : promptFor m s ≠ "" := by
  cases m
  all_goals
    intro h
    have h' := congrArg String.data h
    simp [promptFor, String.data_append] at h'

/-- C9: a context-menu trigger in a non-`ask` mode auto-populates and
sends the mode-specific templated prompt — the user and placeholder
messages are appended and the envelope is posted with no manual input
— while an `ask` trigger only pre-seeds the context and clears the
input, sending nothing; and every templated prompt contains the
selected text verbatim as a substring. The selected text reaches the
request through the prompt itself; the envelope's `context` field
carries the pre-event `selectedContext`, because the source's
`handleSendMessage` closure reads the state of the last committed
render. -/
theorem contextAction_templating :
    (∀ (now : Nat) (m : Mode) (s : String) (st : UIState),
      m ≠ Mode.ask → st.isLoading = false →
      handleContextAction true now m s st =
        ({ st with mode := m, selectedContext := s, isOpen := true,
                   messages := st.messages ++
                     [{ id := toString now, role := Role.user, content := promptFor m s,
                        timestamp := now, isStreaming := false },
                      { id := toString (now + 1), role := Role.assistant, content := "",
                        timestamp := now, isStreaming := true }],
                   input := "", isLoading := true },
         some { messages := (st.messages ++
                    [({ id := toString now, role := Role.user, content := promptFor m s,
                        timestamp := now, isStreaming := false } : Message)]).map toChatMsg
                mode := m
                context := st.selectedContext
                model := st.selectedModel }))
    ∧ (∀ (rv : Bool) (now : Nat) (s : String) (st : UIState),
        handleContextAction rv now Mode.ask s st =
          ({ st with mode := Mode.ask, selectedContext := s, isOpen := true, input := "" },
           none))
    ∧ (∀ (m : Mode) (s : String), ∃ pre suf, promptFor m s = pre ++ (s ++ suf)) := by
  refine ⟨?_, ?_, ?_⟩
  · intro now m s st hm hload
    unfold handleContextAction
    rw [if_pos hm]
    unfold handleSendMessage
    rw [if_neg ?hg]
    case hg =>
      simp [jsOrString, promptFor_ne_empty m s, hload]
    simp [jsOrString, promptFor_ne_empty m s]
  · intro rv now s st
    unfold handleContextAction
    rw [if_neg (by simp)]
  · intro m s
    cases m
    · exact ⟨"Please explain this:\n\n\"", "\"", by simp [promptFor, String.append_assoc]⟩
    · exact ⟨"Create a quiz based on this:\n\n\"", "\"", by simp [promptFor, String.append_assoc]⟩
    · exact ⟨"About this:\n\n\"", "\"", by simp [promptFor, String.append_assoc]⟩
    · exact ⟨"Summarize this:\n\n\"", "\"", by simp [promptFor, String.append_assoc]⟩

/-- Witness for C9: a concrete explain-mode trigger with selected text
posts an envelope without any manual input. -/
theorem contextAction_templating_witness :
    ((handleContextAction true 0 Mode.explain
        ("Photosynthesis converts light to energy") initialUIState).2).isSome = true := by
  have h := contextAction_templating.1 0 Mode.explain
    ("Photosynthesis converts light to energy") initialUIState (by decide) rfl
  rw [h]
  rfl
